import Mathlib

/-!
Verification development for the REST-to-MCP dashboard (src/main.py).

The Python program is dynamically typed, so specification documents and
other JSON/YAML-derived data are embedded as a `PyObj` value type, and
operations that can raise a Python exception return `Option` or carry an
error string.  Exception message texts are modelled by short descriptive
strings; no claim depends on their exact wording except the prefix of the
tool-error marker, which is taken verbatim from the source.
-/

namespace OgonMCP

/-- Dynamic Python-style value, covering every shape the dashboard reads out
of a parsed JSON/YAML document: `None`, booleans, integers, strings, lists
and string-keyed dicts.  Dicts are insertion-ordered association lists, as
in Python.  Floats do not occur in any modelled code path and are omitted. -/
inductive PyObj where
| none : PyObj
| bool (b : Bool) : PyObj
| int (n : Int) : PyObj
| str (s : String) : PyObj
| list (xs : List PyObj) : PyObj
| dict (kvs : List (String × PyObj)) : PyObj

/-- Python dict lookup `d.get(k)` on an association list: first binding wins
(a real Python dict never holds a duplicate key). -/
def dlookup : List (String × PyObj) → String → Option PyObj
| [], _ => Option.none
| (k, v) :: rest, key => if k = key then some v else dlookup rest key

/-- Python dict assignment `d[k] = v`: replaces the first binding of `k` in
place, keeping its position, or appends a new binding at the end —
Python 3.7+ insertion-order semantics. -/
def dinsert : List (String × PyObj) → String → PyObj → List (String × PyObj)
| [], key, v => [(key, v)]
| (k, w) :: rest, key, v =>
  if k = key then (k, v) :: rest else (k, w) :: dinsert rest key v

/-- Python truthiness: `None`, `False`, `0`, the empty string, the empty
list and the empty dict are falsy, everything else is truthy. -/
def truthy : PyObj → Bool
| .none => false
| .bool b => b
| .int n => n != 0
| .str s => !s.data.isEmpty
| .list xs => !xs.isEmpty
| .dict kvs => !kvs.isEmpty

/-- Whether the value is a Python dict (`isinstance(x, dict)`). -/
def PyObj.isDict : PyObj → Bool
| .dict _ => true
| _ => false

/-- Python `str.lower()`; every string the dashboard lowercases is an
ASCII HTTP method name, for which the ASCII case map agrees with Python. -/
def pyLower (s : String) : String :=
  String.mk (s.data.map Char.toLower)

/-- Embeds the inner method filter of `filter_spec` (src/main.py:142-144):
for one path `p`, keep exactly the methods `m` with
`(p, m.lower()) in allowed`. -/
def filterMethods (p : String) (allowed : List (String × String))
    (ms : List (String × PyObj)) : List (String × PyObj) :=
  ms.filter (fun mo => decide ((p, pyLower mo.1) ∈ allowed))

/-- Embeds the path loop of `filter_spec` (src/main.py:141-146): filter the
methods of every path, then drop (`pop`) any path whose method dict became
empty.  Returns `Option.none` when some path maps to a non-dict, on which
the Python `for m in list(s2["paths"][p].keys())` would raise. -/
def filterPaths (allowed : List (String × String)) :
    List (String × PyObj) → Option (List (String × PyObj))
| [] => some []
| (p, ms) :: rest =>
  match ms with
  | .dict mitems =>
    match filterPaths allowed rest with
    | Option.none => Option.none
    | some rest2 =>
      let kept := filterMethods p allowed mitems
      some (if kept.isEmpty then rest2 else (p, PyObj.dict kept) :: rest2)
  | _ => Option.none

/-- Embeds `filter_spec` (src/main.py:138-147).  The deep copy of the pure
source is the identity in a pure model; the function rebuilds the spec with
the filtered `"paths"` entry replaced in place.  `Option.none` models the
`KeyError`/`TypeError` the Python raises when the spec is not a dict, has
no `"paths"` key, or `"paths"` is not a dict of dicts. -/
def filter_spec (spec : PyObj) (allowed : List (String × String)) : Option PyObj :=
  match spec with
  | .dict kvs =>
    match dlookup kvs "paths" with
    | some (.dict pitems) =>
      match filterPaths allowed pitems with
      | some pitems2 => some (.dict (dinsert kvs "paths" (.dict pitems2)))
      | Option.none => Option.none
    | some _ => Option.none
    | Option.none => Option.none
  | _ => Option.none

/-- Python `str.strip("/")`: drop every leading and trailing slash. -/
def stripSlashes (s : String) : String :=
  String.mk (((s.data.dropWhile (· = '/')).reverse.dropWhile (· = '/')).reverse)

/-- Python `str.rstrip("/")`: drop every trailing slash. -/
def rstripSlashes (s : String) : String :=
  String.mk ((s.data.reverse.dropWhile (· = '/')).reverse)

/-- The synthesized operation id of src/main.py:159,
`f"{method}_{path.strip(chr(47)).replace(chr(47), chr(95))}"`: the method
in its original case, an underscore, and the path with outer slashes
stripped and inner slashes replaced by underscores. -/
def synthOpId (method path : String) : String :=
  method ++ "_" ++ String.mk ((stripSlashes path).data.map (fun c => if c = '/' then '_' else c))

/-- One extracted parameter record as built at src/main.py:161-174.  Every
field keeps the dynamic `PyObj` type of the corresponding `p.get(...)`
result. -/
structure ParamInfo where
  name : PyObj
  loc : PyObj
  required : PyObj
  type : PyObj
  description : PyObj

/-- One catalog entry as built at src/main.py:175-179. -/
structure OpInfo where
  description : PyObj
  params : List ParamInfo
  operationId : PyObj

/-- Python iteration `for x in v`: lists yield their elements, dicts their
keys, strings their characters; other values raise (`Option.none`). -/
def pyIterElems : PyObj → Option (List PyObj)
| .list xs => some xs
| .dict kvs => some (kvs.map (fun kv => PyObj.str kv.1))
| .str s => some (s.data.map (fun c => PyObj.str (String.mk [c])))
| _ => Option.none

/-- Embeds the parameter record of src/main.py:163-173 for one element `p`
of the operation parameter list; `Option.none` when `p` is not a dict and
`p.get` would raise. -/
def extractParam (p : PyObj) : Option ParamInfo :=
  match p with
  | .dict d =>
    some { name := (dlookup d "name").getD (.str "")
           loc := (dlookup d "in").getD (.str "")
           required := (dlookup d "required").getD (.bool false)
           type :=
             match dlookup d "schema" with
             | some (.dict sd) => (dlookup sd "type").getD PyObj.none
             | _ => PyObj.none
           description := (dlookup d "description").getD (.str "") }
  | _ => Option.none

/-- Embeds the per-operation body of `extract_ops` (src/main.py:158-179):
synthesize the operation id via the `or` fallback, walk
`op.get("parameters", [])`, and build the catalog record.  `Option.none`
models the exception raised when `op` is not a dict or a parameter entry is
not a dict. -/
def extractOp (method path : String) (op : PyObj) : Option OpInfo :=
  match op with
  | .dict d =>
    match pyIterElems ((dlookup d "parameters").getD (.list [])) with
    | Option.none => Option.none
    | some rawParams =>
      match rawParams.mapM extractParam with
      | Option.none => Option.none
      | some params =>
        let rawId := (dlookup d "operationId").getD PyObj.none
        some { description := (dlookup d "description").getD (.str "")
               params := params
               operationId :=
                 if truthy rawId then rawId else .str (synthOpId method path) }
  | _ => Option.none

/-- Dict assignment for the operations catalog, same semantics as
`dinsert`. -/
def dinsertOp : List (String × OpInfo) → String → OpInfo → List (String × OpInfo)
| [], key, v => [(key, v)]
| (k, w) :: rest, key, v =>
  if k = key then (k, v) :: rest else (k, w) :: dinsertOp rest key v

/-- Inner loop of `extract_ops` over one path item (src/main.py:157-179):
each method inserts its record under the key `method.lower() + " " + path`
with Python dict-assignment semantics. -/
def extractMethods (path : String) :
    List (String × PyObj) → List (String × OpInfo) → Option (List (String × OpInfo))
| [], acc => some acc
| (m, op) :: rest, acc =>
  match extractOp m path op with
  | Option.none => Option.none
  | some info => extractMethods path rest (dinsertOp acc (pyLower m ++ " " ++ path) info)

/-- Outer loop of `extract_ops` over `spec.get("paths", \x7b\x7d).items()`
(src/main.py:156): every path item must itself be a dict, else the Python
`meths.items()` raises (`Option.none`). -/
def extractPaths :
    List (String × PyObj) → List (String × OpInfo) → Option (List (String × OpInfo))
| [], acc => some acc
| (p, ms) :: rest, acc =>
  match ms with
  | .dict mitems =>
    match extractMethods p mitems acc with
    | Option.none => Option.none
    | some acc2 => extractPaths rest acc2
  | _ => Option.none

/-- Embeds `extract_ops` (src/main.py:150-180): a falsy or non-dict spec
yields the empty catalog; otherwise the paths of `spec.get("paths", default
empty dict)` are walked and every method of every path item contributes one
entry keyed by the lowercased method, a space, and the verbatim path. -/
def extract_ops (spec : PyObj) : Option (List (String × OpInfo)) :=
  if ¬ truthy spec ∨ ¬ spec.isDict then some [] else
  match spec with
  | .dict kvs =>
    match (dlookup kvs "paths").getD (.dict []) with
    | .dict pitems => extractPaths pitems []
    | _ => Option.none
  | _ => some []

/-- An API profile with exactly the keys `blank_api` establishes
(src/main.py:225-240).  `thread` models the runtime thread handle: absent,
or present with its `is_alive` flag; `mcp_names` is `Option` because
`blank_api` creates no such key at all. -/
structure Profile where
  name : String
  url : String
  port : Nat
  header_name : String
  header_val : String
  query_name : String
  query_val : String
  spec : PyObj
  operations : List (String × OpInfo)
  enabled : List (String × Bool)
  mcp_names : Option (List (String × String))
  thread : Option Bool
  logs : List String

/-- Embeds `blank_api` (src/main.py:225-240). -/
def blank_api (name : String) : Profile :=
  ⟨name, "", 8000, "", "", "", "", PyObj.none, [], [], Option.none, Option.none, []⟩

/-- Embeds `is_running` checks such as src/main.py:465 and 645:
`cfg.get("thread") and cfg["thread"].is_alive()`. -/
def is_running (api : Profile) : Bool :=
  match api.thread with
  | some alive => alive
  | Option.none => false

/-- Embeds `log_line` (src/main.py:221-222); the wall-clock timestamp
`time.strftime` is passed in as `now`. -/
def log_line (now : String) (api : Profile) (msg : String) : Profile :=
  { api with logs := api.logs ++ [now ++ "  " ++ msg] }

/-- The endpoint set `eps` of src/main.py:197:
`(p, m.lower())` for every path `p` and every method key `m` of
`spec.get("paths", default empty dict)`.  `Option.none` models the raise
when the spec or a path item cannot be iterated as required, or a method
key is not a string.  Python builds a set; the model keeps first
occurrences in insertion order, one representative of the unspecified set
order. -/
def epsOf (spec : PyObj) : Option (List (String × String)) :=
  match spec with
  | .dict kvs =>
    match (dlookup kvs "paths").getD (.dict []) with
    | .dict pitems =>
      let step := fun (acc : Option (List (String × String))) (pv : String × PyObj) =>
        match acc with
        | Option.none => Option.none
        | some acc0 =>
          match pyIterElems pv.2 with
          | Option.none => Option.none
          | some elems =>
            elems.foldlM
              (fun acc1 e =>
                match e with
                | PyObj.str m =>
                  let pair := (pv.1, pyLower m)
                  some (if pair ∈ acc1 then acc1 else acc1 ++ [pair])
                | _ => Option.none)
              acc0
      pitems.foldl step (some [])
    | _ => Option.none
  | _ => Option.none

/-- Embeds `ensure_spec` (src/main.py:183-201).  The external collaborators
are parameters: `fetch` is the outcome of `load_openapi(api["url"])`,
`describe` is the best-effort in-place mutation of `gpt_describe` (the
identity when no API key is configured), `names` the result of
`gpt_mcp_names`.  `Option.none` models an uncaught exception escaping the
function (only possible on a malformed fetched spec, a path no claim
exercises; the partially mutated profile of that path is not modelled).
The fetch failure itself is caught and logged (src/main.py:188-191). -/
def ensure_spec (fetch : Except String PyObj) (describe : PyObj → PyObj)
    (names : PyObj → List (String × String)) (api : Profile) :
    Option (Profile × Bool) :=
  if truthy api.spec ∨ api.url = "" then some (api, false) else
  match fetch with
  | .error e => some ({ api with logs := api.logs ++ ["Spec download error: " ++ e] }, false)
  | .ok spec0 =>
    let spec := describe spec0
    match extract_ops spec with
    | Option.none => Option.none
    | some ops =>
      match epsOf spec with
      | Option.none => Option.none
      | some eps =>
        let enabled2 :=
          if api.enabled.isEmpty
          then eps.map (fun pm => (pm.2 ++ " " ++ pm.1, true))
          else api.enabled
        some ({ api with mcp_names := some (names spec), spec := spec,
                         operations := ops, enabled := enabled2 }, true)

/-- The persisted profile record written by `save_state`
(src/main.py:295-308): the profile minus the two runtime-only fields
`thread` and `logs`.  File encoding through `json.dump`/`json.load` is
lossless for these value shapes and is modelled as the identity. -/
structure ProfileRec where
  name : String
  url : String
  port : Nat
  header_name : String
  header_val : String
  query_name : String
  query_val : String
  spec : PyObj
  operations : List (String × OpInfo)
  enabled : List (String × Bool)
  mcp_names : Option (List (String × String))

/-- Embeds the per-profile body of `save_state` (src/main.py:297-303):
drop `thread` and `logs`, and when the spec is truthy while the operations
map is empty, refill `operations` from `extract_ops`.  `Option.none`
models `extract_ops` raising there. -/
def save_state_api (v : Profile) : Option ProfileRec :=
  let ops :=
    if truthy v.spec ∧ v.operations.isEmpty
    then extract_ops v.spec
    else some v.operations
  ops.map (fun o =>
    ⟨v.name, v.url, v.port, v.header_name, v.header_val, v.query_name,
     v.query_val, v.spec, o, v.enabled, v.mcp_names⟩)

/-- Embeds the per-profile body of `load_state` (src/main.py:256-267):
merge the record over `blank_api(k)`, reset `thread` and `logs`, and take
`operations` from the record (the `extract_ops` default of line 263 fires
only when the key is absent, which a record written by `save_state` never
is).  The catalog key `k` is shadowed by the record name, as the merge
order dictates. -/
def load_state_api (_k : String) (r : ProfileRec) : Profile :=
  ⟨r.name, r.url, r.port, r.header_name, r.header_val, r.query_name,
   r.query_val, r.spec, r.operations, r.enabled, r.mcp_names,
   Option.none, []⟩

/-- Split a character list at its first space. -/
def splitFirstSpace : List Char → Option (List Char × List Char)
| [] => Option.none
| c :: rest =>
  if c = ' ' then some ([], rest)
  else
    match splitFirstSpace rest with
    | some ab => some (c :: ab.1, ab.2)
    | Option.none => Option.none

/-- Python `k.split(" ", 1)` restricted to the success shape: the text
before the first space and the text after it, or `Option.none` when the
key holds no space at all (on which the unpacking at src/main.py:326 would
raise `ValueError`). -/
def split1 (s : String) : Option (String × String) :=
  (splitFirstSpace s.data).map (fun ab => (String.mk ab.1, String.mk ab.2))

/-- The allow-set comprehension of `start_mcp` (src/main.py:323-328):
every enabled-true key `"m p"` is split at the first space and reversed
into the pair `(p, m.lower())`. -/
def allowed_set : List (String × Bool) → Option (List (String × String))
| [] => some []
| (k, v) :: rest =>
  match allowed_set rest with
  | Option.none => Option.none
  | some acc =>
    if v then
      match split1 k with
      | Option.none => Option.none
      | some (m, p) => some ((p, pyLower m) :: acc)
    else some acc

/-- The base-URL resolution of src/main.py:331:
`spec.get("servers", [default url entry])[0]["url"]` followed by
`rstrip` of slashes; `Option.none` models the raise on a malformed
servers entry. -/
def baseOf (spec : PyObj) : Option String :=
  match spec with
  | .dict kvs =>
    match (dlookup kvs "servers").getD (.list [.dict [("url", .str "")]]) with
    | .list (x :: _) =>
      match x with
      | .dict xd =>
        match dlookup xd "url" with
        | some (.str u) => some (rstripSlashes u)
        | _ => Option.none
      | _ => Option.none
    | _ => Option.none
  | _ => Option.none

/-- The start log message of src/main.py:353. -/
def startMsg (api : Profile) : String :=
  "🚀 MCP start :" ++ toString api.port

/-- Interleaving choice for the daemon thread spawned by `start_mcp`: the
thread body emits the start log line either before the caller reaches the
buffer clear at src/main.py:359 (`emitEarly`) or after the clear and
before `start_mcp` returns (`emitBetween`).  Both orders are legal
schedules of the real program. -/
inductive Sched where
| emitEarly : Sched
| emitBetween : Sched

/-- Result of `start_mcp`: either the profile after a normal return, or
the profile at the point an exception escaped, with its message. -/
inductive StartResult where
| ok (api : Profile) : StartResult
| raised (api : Profile) (msg : String) : StartResult

/-- The auth header dict of src/main.py:332-334. -/
def authHeaders (api : Profile) : List (String × String) :=
  if api.header_name ≠ "" then [(api.header_name, api.header_val)] else []

/-- The auth query-param dict of src/main.py:335-337. -/
def authQparams (api : Profile) : List (String × String) :=
  if api.query_name ≠ "" then [(api.query_name, api.query_val)] else []

/-- The tail of a successful `start_mcp` (src/main.py:352-359): the daemon
thread is started (its body emits the start log line), the thread handle
is recorded, and the log buffer is cleared — in that source order, with
the thread emission placed before or after the clear per `sched`. -/
def start_finish (sched : Sched) (now : String) (api2 : Profile) : Profile :=
  match sched with
  | .emitEarly =>
    { log_line now api2 (startMsg api2) with thread := some true, logs := [] }
  | .emitBetween =>
    log_line now { api2 with thread := some true, logs := [] } (startMsg api2)

/-- Embeds `start_mcp` (src/main.py:315-360).  In source order: run
`ensure_spec`; raise `"Spec not loaded"` when the spec is still falsy;
refill an empty operations map; build the allow-set and the filtered spec;
resolve the base URL; build the auth headers and query params
(`authHeaders`/`authQparams`, handed with the filtered spec to the
external `make_http_client` and `FastMCP.from_openapi`, modelled as
succeeding); then launch the thread and clear the buffer via
`start_finish`. -/
def start_mcp (sched : Sched) (now : String) (fetch : Except String PyObj)
    (describe : PyObj → PyObj) (names : PyObj → List (String × String))
    (api : Profile) : StartResult :=
  match ensure_spec fetch describe names api with
  | Option.none => .raised api "ensure_spec raised"
  | some (api1, _) =>
    if ¬ truthy api1.spec then .raised api1 "Spec not loaded" else
    match (if truthy api1.spec ∧ api1.operations.isEmpty
           then (extract_ops api1.spec).map (fun ops => { api1 with operations := ops })
           else some api1) with
    | Option.none => .raised api1 "extract_ops raised"
    | some api2 =>
      match allowed_set api2.enabled with
      | Option.none => .raised api2 "ValueError: not enough values to unpack"
      | some allowed =>
        match filter_spec api2.spec allowed with
        | Option.none => .raised api2 "KeyError: paths"
        | some _specFiltered =>
          match baseOf api2.spec with
          | Option.none => .raised api2 "server url error"
          | some _base => .ok (start_finish sched now api2)

/-- Drop leading JSON whitespace. -/
def skipWs : List Char → List Char
| [] => []
| c :: rest =>
  if c = ' ' || c = '\n' || c = '\t' || c = '\r' then skipWs rest else c :: rest

/-- Read the remainder of a JSON string up to the closing quote.  The model
of the external `json.loads` omits escape sequences (no claim feeds it a
string containing a backslash). -/
def jstrChars : List Char → List Char → Option (String × List Char)
| _, [] => Option.none
| acc, c :: rest =>
  if c = '"' then some (String.mk acc.reverse, rest)
  else if c = '\\' then Option.none
  else jstrChars (c :: acc) rest

/-- Consume further decimal digits onto an accumulator. -/
def jdigitsAux : List Char → Nat → Nat × List Char
| [], acc => (acc, [])
| c :: rest, acc =>
  if c.isDigit then jdigitsAux rest (acc * 10 + (c.toNat - 48)) else (acc, c :: rest)

/-- Consume one or more decimal digits. -/
def jdigits : List Char → Option (Nat × List Char)
| [] => Option.none
| c :: rest =>
  if c.isDigit then some (jdigitsAux rest (c.toNat - 48)) else Option.none

/-- Match an exact literal tail such as `rue` of `true`. -/
def stripLit (lit : List Char) (cs : List Char) : Option (List Char) :=
  if cs.take lit.length = lit then some (cs.drop lit.length) else Option.none

mutual

/-- Recursive-descent JSON value parser modelling the external
`json.loads`, restricted to the fragment the dashboard exchanges: strings
without escapes, integers, booleans, null, arrays and objects.  The fuel
argument strictly bounds recursion depth; `jloads` supplies enough for any
input. -/
def jval : Nat → List Char → Option (PyObj × List Char)
| 0, _ => Option.none
| fuel + 1, cs =>
  match skipWs cs with
  | [] => Option.none
  | '"' :: rest => (jstrChars [] rest).map (fun sr => (PyObj.str sr.1, sr.2))
  | '\x7b' :: rest =>
    (match skipWs rest with
     | '\x7d' :: rest2 => some (PyObj.dict [], rest2)
     | cs2 => jobjItems fuel cs2 [])
  | '[' :: rest =>
    (match skipWs rest with
     | ']' :: rest2 => some (PyObj.list [], rest2)
     | cs2 => jarrItems fuel cs2 [])
  | '-' :: rest => (jdigits rest).map (fun nr => (PyObj.int (-(nr.1 : Int)), nr.2))
  | 't' :: rest => (stripLit ['r', 'u', 'e'] rest).map (fun r => (PyObj.bool true, r))
  | 'f' :: rest => (stripLit ['a', 'l', 's', 'e'] rest).map (fun r => (PyObj.bool false, r))
  | 'n' :: rest => (stripLit ['u', 'l', 'l'] rest).map (fun r => (PyObj.none, r))
  | c :: rest =>
    if c.isDigit
    then some (jdigitsAux rest (c.toNat - 48)) |>.map (fun nr => (PyObj.int (nr.1 : Int), nr.2))
    else Option.none

/-- Array elements after the first opening bracket. -/
def jarrItems : Nat → List Char → List PyObj → Option (PyObj × List Char)
| 0, _, _ => Option.none
| fuel + 1, cs, acc =>
  match jval fuel cs with
  | Option.none => Option.none
  | some (v, rest) =>
    match skipWs rest with
    | ',' :: rest2 => jarrItems fuel rest2 (acc ++ [v])
    | ']' :: rest2 => some (PyObj.list (acc ++ [v]), rest2)
    | _ => Option.none

/-- Object members after the first opening brace; duplicate keys keep the
last value at the first position, as in Python. -/
def jobjItems : Nat → List Char → List (String × PyObj) → Option (PyObj × List Char)
| 0, _, _ => Option.none
| fuel + 1, cs, acc =>
  match skipWs cs with
  | '"' :: rest =>
    (match jstrChars [] rest with
     | Option.none => Option.none
     | some (k, rest1) =>
       match skipWs rest1 with
       | ':' :: rest2 =>
         (match jval fuel rest2 with
          | Option.none => Option.none
          | some (v, rest3) =>
            match skipWs rest3 with
            | ',' :: rest4 => jobjItems fuel rest4 (dinsert acc k v)
            | '\x7d' :: rest4 => some (PyObj.dict (dinsert acc k v), rest4)
            | _ => Option.none)
       | _ => Option.none)
  | _ => Option.none

end

/-- Model of the external `json.loads`: parse one value and require only
whitespace after it. -/
def jloads (s : String) : Option PyObj :=
  match jval (s.length + 1) s.data with
  | some (v, rest) => if (skipWs rest).isEmpty then some v else Option.none
  | Option.none => Option.none

/-- The argument payload rewrite of src/main.py:705,
`fc.arguments or` the empty-object text: an absent or empty payload is
replaced by the two-character empty-object document before parsing. -/
def argText : Option String → String
| Option.none => "\x7b\x7d"
| some s => if s = "" then "\x7b\x7d" else s

/-- One tool as returned by the tool-list endpoint and consumed at
src/main.py:679-686. -/
structure Tool where
  name : String
  description : String
  input_schema : PyObj

/-- One LLM function declaration as built at src/main.py:679-686. -/
structure FunctionDecl where
  name : String
  description : String
  parameters : PyObj

/-- The translation of one listed tool into the LLM function-declaration
shape (src/main.py:679-686). -/
def toFunctionDecl (t : Tool) : FunctionDecl :=
  ⟨t.name, t.description, t.input_schema⟩

/-- A scripted LLM reply: either a message carrying a `function_call`, or a
plain content answer (src/main.py:700-703). -/
inductive LLMMsg where
| funCall (name : String) (arguments : Option String) : LLMMsg
| plain (content : String) : LLMMsg

/-- A function-call payload as carried on an assistant message. -/
structure FunCall where
  name : String
  arguments : Option String

/-- One message of the in-loop conversation list `conv`
(src/main.py:689-730): role, content (a dynamic value, `PyObj.none` for
Python `None`), and the optional `name` and `function_call` fields. -/
structure ConvMsg where
  role : String
  content : PyObj
  name : Option String
  function_call : Option FunCall

/-- Extraction of the tool result text at src/main.py:712,
`result["content"][0]["text"]`; an `error` is the exception text of the
raise on a bad shape. -/
def extractToolText (r : PyObj) : Except String PyObj :=
  match r with
  | .dict d =>
    match dlookup d "content" with
    | some (.list (x :: _)) =>
      (match x with
       | .dict xd =>
         match dlookup xd "text" with
         | some v => .ok v
         | Option.none => .error "KeyError: text"
       | _ => .error "TypeError: tool content element")
    | some (.list []) => .error "IndexError: list index out of range"
    | some _ => .error "TypeError: tool content"
    | Option.none => .error "KeyError: content"
  | _ => .error "TypeError: tool result"

/-- The tool answer of src/main.py:706-714: the extracted result text on
success, and on any transport or shape failure the error text behind the
warning marker, exactly as the `except` branch formats it. -/
def toolAnswer (post : Except String PyObj) : PyObj :=
  match post with
  | .error e => .str ("⚠️ MCP error: " ++ e)
  | .ok r =>
    match extractToolText r with
    | .ok v => v
    | .error e => .str ("⚠️ MCP error: " ++ e)

/-- Whether a tool invocation outcome lands in the `except` branch of
src/main.py:713-714: a transport error, or a response whose shape breaks
the `result["content"][0]["text"]` extraction. -/
def toolFails (post : Except String PyObj) : Bool :=
  match post with
  | .error _ => true
  | .ok r =>
    match extractToolText r with
    | .error _ => true
    | .ok _ => false

/-- Outcome of one chat-loop run on a finite LLM script. -/
inductive LoopResult where
| finished (conv : List ConvMsg) (calls : List (String × PyObj)) (answer : String) : LoopResult
| crashed : LoopResult
| exhausted : LoopResult

/-- Embeds the `while True` conversation loop of src/main.py:696-735 run
against a scripted LLM: each `function_call` reply parses its payload,
invokes the tool through `post`, appends the assistant function-call turn
and the function result turn, and loops; a plain reply ends the loop with
the answer.  `crashed` models the uncaught `json.loads` raise on a
malformed payload; `exhausted` is the model artifact of running out of
script. -/
def chatLoop (post : String → PyObj → Except String PyObj) :
    List LLMMsg → List ConvMsg → List (String × PyObj) → LoopResult
| [], _, _ => .exhausted
| .plain c :: _, conv, calls => .finished conv calls c
| .funCall n a :: rest, conv, calls =>
  match jloads (argText a) with
  | Option.none => .crashed
  | some args =>
    let ans := toolAnswer (post n args)
    chatLoop post rest
      (conv ++ [⟨"assistant", PyObj.none, some n, some ⟨n, a⟩⟩,
                ⟨"function", ans, some n, Option.none⟩])
      (calls ++ [(n, args)])

/-- The system prompt of src/main.py:690-693. -/
def sysPrompt : String := "При необходимости используй MCP-tools."

/-- Lift one persistent chat turn `(role, text)` into the conversation
message shape of src/main.py:694. -/
def chatTurnMsg (rm : String × String) : ConvMsg :=
  ⟨rm.1, PyObj.str rm.2, Option.none, Option.none⟩

/-- Outcome of one user turn of the chat page, carrying the persistent
chat state in every case. -/
inductive TurnResult where
| listErr (err : String) (chat : List (String × String)) : TurnResult
| done (chat : List (String × String)) (conv : List ConvMsg)
    (calls : List (String × PyObj)) (answer : String) : TurnResult
| crashed (chat : List (String × String)) : TurnResult
| exhausted (chat : List (String × String)) : TurnResult

/-- Embeds one user turn of the chat page (src/main.py:664-735): append
the user message to the persistent chat, fetch the tool list (a failure is
shown and stops the turn, src/main.py:670-677), translate the tools to
function declarations, build `conv` from the system prompt plus the chat
history, and run the loop; the final plain answer is appended to the
persistent chat as the assistant turn. -/
def handleUserMessage (toolsFetch : Except String (List Tool))
    (post : String → PyObj → Except String PyObj)
    (script : List LLMMsg) (chat : List (String × String)) (userMsg : String) :
    TurnResult :=
  let chat1 := chat ++ [("user", userMsg)]
  match toolsFetch with
  | .error e => .listErr e chat1
  | .ok tools =>
    let _functions := tools.map toFunctionDecl
    let conv0 := ⟨"system", PyObj.str sysPrompt, Option.none, Option.none⟩ ::
      chat1.map chatTurnMsg
    match chatLoop post script conv0 [] with
    | .finished conv calls ans => .done (chat1 ++ [("assistant", ans)]) conv calls ans
    | .crashed => .crashed chat1
    | .exhausted => .exhausted chat1

/-- Lookup in the enabled map, first binding wins. -/
def blookup : List (String × Bool) → String → Option Bool
| [], _ => Option.none
| (k, v) :: rest, key => if k = key then some v else blookup rest key

/-- The (path, method) operation pairs of a paths dict: one pair per method
key of every path item that is a dict. -/
def pathOps : List (String × PyObj) → List (String × String)
| [] => []
| (p, ms) :: rest =>
  (match ms with
   | PyObj.dict mitems => mitems.map (fun mo => (p, mo.1))
   | _ => []) ++ pathOps rest

/-- Whether the value is a dict with at least one entry. -/
def isNonemptyDict : PyObj → Bool
| .dict (_ :: _) => true
| _ => false

/-- Every path item of the paths dict is itself a dict — the shape on
which `filter_spec` completes without raising. -/
def allDicts : List (String × PyObj) → Bool
| [] => true
| (_, v) :: rest => v.isDict && allDicts rest

/-- Every path item is a dict with at least one method. -/
def allNonemptyDicts : List (String × PyObj) → Bool
| [] => true
| (_, v) :: rest => isNonemptyDict v && allNonemptyDicts rest

/-- The catalog keys `extract_ops` generates from a paths dict, in source
order: lowercased method, one space, verbatim path. -/
def catalogKeys : List (String × PyObj) → List String
| [] => []
| (p, ms) :: rest =>
  (match ms with
   | PyObj.dict mitems => mitems.map (fun mo => pyLower mo.1 ++ " " ++ p)
   | _ => []) ++ catalogKeys rest

/-- Turn predicate: a user turn. -/
def turnIsUser (m : ConvMsg) : Bool := m.role == "user"

/-- Turn predicate: an assistant turn carrying a function call. -/
def turnIsCallingAssistant (m : ConvMsg) : Bool :=
  m.role == "assistant" && m.function_call.isSome

/-- Turn predicate: a tool-result turn (the source uses role `function`;
role `tool` is accepted as well so the check is not vacuous on either
naming). -/
def turnIsToolResult (m : ConvMsg) : Bool :=
  m.role == "function" || m.role == "tool"

/-- Turn predicate: a plain assistant turn without a function call. -/
def turnIsFinalAssistant (m : ConvMsg) : Bool :=
  m.role == "assistant" && m.function_call.isNone

/-- Whether a message list contains, in order, one turn matching each
predicate of `shape` (as a subsequence). -/
def matchShape : List (ConvMsg → Bool) → List ConvMsg → Bool
| [], _ => true
| _ :: _, [] => false
| p :: ps, m :: ms => if p m then matchShape ps ms else matchShape (p :: ps) ms

/-- The four-turn sequence the specification promises for one user turn
with one tool call: user, assistant with function call, tool result,
final assistant. -/
def fourTurnShape : List (ConvMsg → Bool) :=
  [turnIsUser, turnIsCallingAssistant, turnIsToolResult, turnIsFinalAssistant]

/-- Concrete spec whose only operation uses the OPTIONS metadata-probe
method. -/
def specProbe : PyObj :=
  .dict [("paths", .dict [("/x", .dict [("options", .dict [])])])]

/-- Concrete two-operation pet spec from the specification scenarios. -/
def specPetsEx : PyObj :=
  .dict [("paths", .dict [("/pets", .dict [("get", .dict []), ("post", .dict [])])])]

/-- The paths dict of the pet spec, as a plain item list. -/
def pitemsPets : List (String × PyObj) :=
  [("/pets", .dict [("get", .dict []), ("post", .dict [])])]

/-- The pet spec as a top-level entry list with a second, untouched key. -/
def kvsPets : List (String × PyObj) :=
  [("info", .str "petstore"), ("paths", .dict pitemsPets)]

/-- Concrete runnable spec with a declared server URL. -/
def specSrvEx : PyObj :=
  .dict [("paths", .dict [("/x", .dict [("get", .dict [])])]),
         ("servers", .list [.dict [("url", .str "http://h/")]])]

/-- Fresh profile pointing at a spec URL, nothing loaded yet, empty
enabled map. -/
def profFresh : Profile := { blank_api "a" with url := "http://x" }

/-- Fresh profile with one pre-existing enabled choice. -/
def profChoice : Profile :=
  { blank_api "a" with url := "http://x", enabled := [("get /old", false)] }

/-- Profile holding a loaded runnable spec with one enabled operation. -/
def profRun : Profile :=
  { blank_api "a" with spec := specSrvEx, enabled := [("get /x", true)] }

/-- Profile with a loaded spec but an empty operations map, as a freshly
imported profile file can be. -/
def profEmptyOps : Profile :=
  { blank_api "a" with spec := specPetsEx, enabled := [("get /pets", false)] }

/-- A profile without a spec, whose operations map is nonempty. -/
def profNoSpecOps : Profile :=
  { blank_api "b" with
      operations := [("get /x", ⟨.str "", [], .str "get_x"⟩)],
      enabled := [("get /x", true)],
      mcp_names := some [("get_x", "fetch_x")] }

/-- One listed tool for the conversation scenarios. -/
def toolT : Tool := ⟨"t", "a tool", .dict []⟩

/-- A tool endpoint that always answers with the result text `R`. -/
def postOk : String → PyObj → Except String PyObj :=
  fun _ _ => .ok (.dict [("content", .list [.dict [("text", .str "R")]])])

/-- A tool endpoint that always fails at the transport level. -/
def postBoom : String → PyObj → Except String PyObj :=
  fun _ _ => .error "boom"

/-- The one-call scripted turn for the four-turn-shape scenario. -/
def c3run : TurnResult :=
  handleUserMessage (.ok [toolT]) postOk
    [LLMMsg.funCall "t" Option.none, LLMMsg.plain "done"] [] "hi"

/-- The in-loop conversation of a finished turn. -/
def turnConv : TurnResult → List ConvMsg
| .done _ conv _ _ => conv
| _ => []

/-- The persistent chat state of a turn outcome. -/
def turnChat : TurnResult → List (String × String)
| .done chat _ _ _ => chat
| .listErr _ chat => chat
| .crashed chat => chat
| .exhausted chat => chat

/-- The tool invocations a turn issued. -/
def turnCalls : TurnResult → List (String × PyObj)
| .done _ _ calls _ => calls
| _ => []

/-- Whether the turn finished with a final answer. -/
def turnIsDone : TurnResult → Bool
| .done _ _ _ _ => true
| _ => false

/-- The final answer of a finished turn. -/
def turnAnswer : TurnResult → Option String
| .done _ _ _ ans => some ans
| _ => Option.none

/-- C8: when the tool-list query fails, the turn aborts with the failure
reported, the just-appended user message remains recorded in the chat
state, and no assistant reply is appended. -/
theorem tools_list_failure_aborts (e : String)
    (post : String → PyObj → Except String PyObj) (script : List LLMMsg)
    (chat : List (String × String)) (u : String) :
    handleUserMessage (.error e) post script chat u =
      .listErr e (chat ++ [("user", u)]) := rfl

/-- C10: `extract_ops` is total on degenerate inputs — a `None`, non-dict
or paths-less spec yields the empty catalog — while `filter_spec` raises on
any dict spec lacking a paths key. -/
theorem degenerate_spec_inputs :
    extract_ops PyObj.none = some [] ∧
    (∀ s : PyObj, s.isDict = false → extract_ops s = some []) ∧
    (∀ kvs, dlookup kvs "paths" = Option.none → extract_ops (.dict kvs) = some []) ∧
    (∀ kvs allowed, dlookup kvs "paths" = Option.none →
      filter_spec (.dict kvs) allowed = Option.none) := by
  refine ⟨rfl, ?_, ?_, ?_⟩
  · intro s h
    unfold extract_ops
    rw [h]
    simp
  · intro kvs h
    cases kvs with
    | nil => rfl
    | cons kv rest =>
      simp [extract_ops, truthy, PyObj.isDict, h, extractPaths]
  · intro kvs allowed h
    simp [filter_spec, h]

/-- C10 witness at concrete degenerate inputs. -/
theorem degenerate_spec_inputs_witness :
    PyObj.isDict (.str "nope") = false ∧
    dlookup [("a", PyObj.int 1)] "paths" = Option.none ∧
    extract_ops (.str "nope") = some [] ∧
    filter_spec (.dict [("a", PyObj.int 1)]) [] = Option.none :=
  ⟨rfl, rfl, degenerate_spec_inputs.2.1 _ rfl, degenerate_spec_inputs.2.2.2 _ _ rfl⟩
/-- C7: starting a profile whose spec is absent and cannot be loaded (no
URL, or the fetch fails) raises the spec-not-loaded error synchronously:
the thread handle is untouched, the spec stays absent, and liveness is
unchanged (hence still false for a never-started profile). -/
theorem start_mcp_spec_not_loaded (sched : Sched) (now : String)
    (fetch : Except String PyObj) (describe : PyObj → PyObj)
    (names : PyObj → List (String × String)) (api : Profile)
    (hspec : truthy api.spec = false)
    (hfail : api.url = "" ∨ ∃ e, fetch = .error e) :
    ∃ a, start_mcp sched now fetch describe names api = .raised a "Spec not loaded" ∧
      a.thread = api.thread ∧ a.spec = api.spec ∧ is_running a = is_running api := by
  rcases hfail with hurl | ⟨e, hfetch⟩
  · refine ⟨api, ?_, rfl, rfl, rfl⟩
    unfold start_mcp ensure_spec
    rw [hurl]
    simp [hspec]
  · by_cases hurl : api.url = ""
    · refine ⟨api, ?_, rfl, rfl, rfl⟩
      unfold start_mcp ensure_spec
      rw [hurl]
      simp [hspec]
    · refine ⟨{ api with logs := api.logs ++ ["Spec download error: " ++ e] }, ?_, rfl, rfl, rfl⟩
      unfold start_mcp ensure_spec
      rw [hfetch]
      simp [hspec, hurl]

/-- C7 witness: a fresh profile with a URL but no spec, and a failing
fetch. -/
theorem start_mcp_spec_not_loaded_witness :
    truthy profFresh.spec = false ∧
    ∃ a, start_mcp .emitEarly "t" (.error "ConnectionError") id (fun _ => []) profFresh =
        .raised a "Spec not loaded" ∧
      a.thread = profFresh.thread ∧ a.spec = profFresh.spec ∧
      is_running a = is_running profFresh :=
  ⟨rfl, start_mcp_spec_not_loaded _ _ _ _ _ _ rfl (Or.inr ⟨"ConnectionError", rfl⟩)⟩

/-- C9 counterexample: a successful start under the interleaving where the
spawned thread emits its start line before the caller reaches the buffer
clear leaves the buffer empty after start returns — the start line is not
present, so the clear does not precede the emission. -/
theorem start_clears_log_after_emit :
    (match start_mcp .emitEarly "12:00:00" (.error "unused") id (fun _ => []) profRun with
     | .ok a => a.thread = some true ∧ a.logs = []
     | .raised _ _ => False) := ⟨rfl, rfl⟩

/-- Every profile a successful `start_mcp` returns is the image of
`start_finish`. -/
theorem start_mcp_ok_shape (sched : Sched) (now : String)
    (fetch : Except String PyObj) (describe : PyObj → PyObj)
    (names : PyObj → List (String × String)) (api a : Profile)
    (h : start_mcp sched now fetch describe names api = .ok a) :
    ∃ api2, a = start_finish sched now api2 := by
  unfold start_mcp at h
  repeat' split at h
  all_goals first
    | (injection h with h2; exact ⟨_, h2.symm⟩)
    | exact absurd h (by simp)

/-- Port is preserved by the start tail. -/
theorem start_finish_port (sched : Sched) (now : String) (api2 : Profile) :
    (start_finish sched now api2).port = api2.port := by
  cases sched <;> rfl

/-- C9 amended: `start_mcp` clears the log buffer after launching the
thread, so after a successful start the buffer is empty when the thread
emitted the start line before the clear, and holds exactly the start line
(with the port) when the thread emitted it after the clear. -/
theorem start_mcp_log_buffer (now : String) (fetch : Except String PyObj)
    (describe : PyObj → PyObj) (names : PyObj → List (String × String))
    (api a : Profile) :
    (start_mcp .emitEarly now fetch describe names api = .ok a → a.logs = []) ∧
    (start_mcp .emitBetween now fetch describe names api = .ok a →
      a.logs = [now ++ "  " ++ startMsg a]) := by
  constructor
  · intro h
    obtain ⟨api2, rfl⟩ := start_mcp_ok_shape _ _ _ _ _ _ _ h
    rfl
  · intro h
    obtain ⟨api2, rfl⟩ := start_mcp_ok_shape _ _ _ _ _ _ _ h
    show (log_line now { api2 with thread := some true, logs := [] } (startMsg api2)).logs = _
    simp [log_line, startMsg, start_finish]

/-- C9 amended witness at the concrete runnable profile. -/
theorem start_mcp_log_buffer_witness :
    (match start_mcp .emitBetween "12:00:00" (.error "unused") id (fun _ => []) profRun with
     | .ok a => a.logs = ["12:00:00  " ++ startMsg a]
     | .raised _ _ => False) := by
  exact (start_mcp_log_buffer "12:00:00" (.error "unused") id (fun _ => []) profRun _).2 rfl
/-- C2 counterexample: a load into a profile whose enabled map is empty
maps the newly discovered operation key directly to true — the load ships
new operations enabled, contradicting the claim that a refresh never
implicitly maps a new operation key to true. -/
theorem ensure_spec_ships_enabled :
    (match ensure_spec (.ok specPetsEx) id (fun _ => []) profFresh with
     | some (a, loaded) =>
       loaded = true ∧ profFresh.enabled = [] ∧
       blookup a.enabled "get /pets" = some true ∧
       blookup a.enabled "post /pets" = some true
     | Option.none => False) := ⟨rfl, rfl, rfl, rfl⟩

/-- Soundness of the allow-set of `start_mcp`: every projected pair comes
from an enabled-true key. -/
theorem allowed_set_sound (enabled : List (String × Bool)) (A : List (String × String))
    (hA : allowed_set enabled = some A) : ∀ pm ∈ A,
    ∃ k m p, (k, true) ∈ enabled ∧ split1 k = some (m, p) ∧ pm = (p, pyLower m) := by
  induction enabled generalizing A with
  | nil =>
    injection hA with h2
    subst h2
    intro pm hpm
    exact absurd hpm (List.not_mem_nil _)
  | cons kv rest ih =>
    obtain ⟨k, v⟩ := kv
    unfold allowed_set at hA
    cases hrest : allowed_set rest with
    | none =>
      rw [hrest] at hA
      exact absurd hA (by simp)
    | some acc =>
      rw [hrest] at hA
      cases v with
      | false =>
        simp only [Bool.false_eq_true, if_false] at hA
        injection hA with h2
        subst h2
        intro pm hpm
        obtain ⟨k2, m, p, hmem, hs, hp⟩ := ih acc hrest pm hpm
        exact ⟨k2, m, p, List.mem_cons_of_mem _ hmem, hs, hp⟩
      | true =>
        simp only [if_true] at hA
        cases hsplit : split1 k with
        | none =>
          rw [hsplit] at hA
          exact absurd hA (by simp)
        | some mp2 =>
          rw [hsplit] at hA
          injection hA with h2
          subst h2
          intro pm hpm
          rcases List.mem_cons.mp hpm with heq | hmem
          · exact ⟨k, mp2.1, mp2.2, List.mem_cons_self _ _, by rw [hsplit], heq⟩
          · obtain ⟨k2, m, p, hmem2, hs, hp⟩ := ih acc hrest pm hmem
            exact ⟨k2, m, p, List.mem_cons_of_mem _ hmem2, hs, hp⟩

/-- C2 amended: after a spec load, a nonempty enabled map is left
unchanged — newly discovered operation keys stay absent, hence disabled —
and the allow-set projected by `start_mcp` draws only from keys mapped to
true; but when the enabled map was empty, the load maps every discovered
operation to true. -/
theorem ensure_spec_enabled_discipline (fetch : Except String PyObj)
    (describe : PyObj → PyObj) (names : PyObj → List (String × String))
    (api r : Profile) (loaded : Bool)
    (h : ensure_spec fetch describe names api = some (r, loaded)) :
    ((api.enabled ≠ [] → r.enabled = api.enabled) ∧
     (api.enabled = [] → ∀ kb ∈ r.enabled, kb.2 = true)) ∧
    (∀ enabled A, allowed_set enabled = some A → ∀ pm ∈ A,
      ∃ k m p, (k, true) ∈ enabled ∧ split1 k = some (m, p) ∧ pm = (p, pyLower m)) := by
  refine ⟨?_, fun enabled A hA => allowed_set_sound enabled A hA⟩
  unfold ensure_spec at h
  split at h
  · injection h with h2
    injection h2 with h3 h4
    subst h3
    exact ⟨fun _ => rfl, fun he _ hm => absurd (he ▸ hm) (List.not_mem_nil _)⟩
  · split at h
    · injection h with h2
      injection h2 with h3 h4
      subst h3
      exact ⟨fun _ => rfl, fun he _ hm => absurd (he ▸ hm) (List.not_mem_nil _)⟩
    · dsimp only at h
      split at h
      · exact absurd h (by simp)
      · split at h
        · exact absurd h (by simp)
        · injection h with h2
          injection h2 with h3 h4
          subst h3
          constructor
          · intro hne
            simp [List.isEmpty_iff, hne]
          · intro he kb hm
            simp only [he, List.isEmpty_nil, if_true] at hm
            obtain ⟨pm, _, rfl⟩ := List.mem_map.mp hm
            rfl

/-- C2 amended witness: a profile with one pre-existing choice keeps its
enabled map unchanged across a successful load. -/
theorem ensure_spec_enabled_discipline_witness :
    profChoice.enabled ≠ [] ∧
    ∃ r loaded, ensure_spec (.ok specPetsEx) id (fun _ => []) profChoice = some (r, loaded) ∧
      r.enabled = profChoice.enabled :=
  ⟨by decide, _, _, rfl,
    (ensure_spec_enabled_discipline (.ok specPetsEx) id (fun _ => []) profChoice _ _ rfl).1.1
      (by decide)⟩
/-- The empty-object document parses to the empty dict. -/
theorem jloads_empty_object : jloads "\x7b\x7d" = some (PyObj.dict []) := rfl

/-- A failing tool invocation always yields a warning-marked answer. -/
theorem toolAnswer_of_fails (post1 : Except String PyObj) (h : toolFails post1 = true) :
    ∃ e, toolAnswer post1 = .str ("⚠️ MCP error: " ++ e) := by
  cases post1 with
  | error e => exact ⟨e, rfl⟩
  | ok r =>
    cases hx : extractToolText r with
    | ok v => simp [toolFails, hx] at h
    | error e => exact ⟨e, by simp [toolAnswer, hx]⟩

/-- C4: when a requested tool invocation fails — transport error or bad
response shape — the loop does not abort: an empty or absent argument
payload is parsed as the empty object, the appended function turn carries
the warning-marked error string, and the loop continues with the next LLM
round-trip on the remaining script. -/
theorem chatLoop_tool_failure_resilient (post : String → PyObj → Except String PyObj)
    (n : String) (a : Option String) (rest : List LLMMsg)
    (conv : List ConvMsg) (calls : List (String × PyObj))
    (ha : a = Option.none ∨ a = some "")
    (hfail : toolFails (post n (PyObj.dict [])) = true) :
    ∃ e, toolAnswer (post n (PyObj.dict [])) = .str ("⚠️ MCP error: " ++ e) ∧
      chatLoop post (.funCall n a :: rest) conv calls =
        chatLoop post rest
          (conv ++ [⟨"assistant", PyObj.none, some n, some ⟨n, a⟩⟩,
                    ⟨"function", .str ("⚠️ MCP error: " ++ e), some n, Option.none⟩])
          (calls ++ [(n, PyObj.dict [])]) := by
  have hparse : jloads (argText a) = some (PyObj.dict []) := by
    rcases ha with rfl | rfl <;> rfl
  obtain ⟨e, hans⟩ := toolAnswer_of_fails (post n (PyObj.dict [])) hfail
  refine ⟨e, hans, ?_⟩
  conv_lhs => rw [chatLoop]
  rw [hparse]
  dsimp only
  rw [hans]

/-- C4 witness: a transport-failing endpoint with an absent payload. -/
theorem chatLoop_tool_failure_resilient_witness :
    ((Option.none : Option String) = Option.none ∨
      (Option.none : Option String) = some "") ∧
    toolFails (postBoom "t" (PyObj.dict [])) = true ∧
    ∃ e, toolAnswer (postBoom "t" (PyObj.dict [])) = .str ("⚠️ MCP error: " ++ e) ∧
      chatLoop postBoom [.funCall "t" Option.none] [] [] =
        chatLoop postBoom []
          ([] ++ [⟨"assistant", PyObj.none, some "t", some ⟨"t", Option.none⟩⟩,
                  ⟨"function", .str ("⚠️ MCP error: " ++ e), some "t", Option.none⟩])
          ([] ++ [("t", PyObj.dict [])]) :=
  ⟨Or.inl rfl, rfl,
    chatLoop_tool_failure_resilient postBoom "t" Option.none [] [] [] (Or.inl rfl) rfl⟩

/-- C3 counterexample: on the scripted one-call turn the loop does issue
exactly one tool invocation and return the plain answer, but no single
conversation state holds the four turns user, assistant(function-call),
tool(result), assistant(final) in order: the in-loop list lacks the final
assistant turn and the persistent chat lacks the function-call and tool
turns. -/
theorem conversation_four_turn_counterexample :
    turnIsDone c3run = true ∧
    turnCalls c3run = [("t", PyObj.dict [])] ∧
    turnAnswer c3run = some "done" ∧
    matchShape fourTurnShape (turnConv c3run) = false ∧
    matchShape fourTurnShape ((turnChat c3run).map chatTurnMsg) = false :=
  ⟨rfl, rfl, rfl, rfl, rfl⟩
/-- C3 amended: on a script of one function call then a plain answer, the
turn issues exactly one tool invocation and returns the plain answer; the
persistent chat gains, in order, the user turn and the final assistant
turn, while the in-loop conversation gains, in order, the user turn, the
assistant function-call turn and the function-result turn — the four
turns are split across the two states, with the final assistant turn
absent from the in-loop list and the call turns absent from the chat. -/
theorem conversation_single_call_shape (tools : List Tool)
    (post : String → PyObj → Except String PyObj)
    (chat : List (String × String)) (u n : String) (a : Option String)
    (ans : String) (args : PyObj)
    (hargs : jloads (argText a) = some args) :
    handleUserMessage (.ok tools) post [.funCall n a, .plain ans] chat u =
      .done ((chat ++ [("user", u)]) ++ [("assistant", ans)])
        ((⟨"system", PyObj.str sysPrompt, Option.none, Option.none⟩ ::
            (chat ++ [("user", u)]).map chatTurnMsg) ++
          [⟨"assistant", PyObj.none, some n, some ⟨n, a⟩⟩,
           ⟨"function", toolAnswer (post n args), some n, Option.none⟩])
        ([] ++ [(n, args)]) ans := by
  unfold handleUserMessage
  dsimp only
  conv_lhs => rw [chatLoop]
  rw [hargs]
  rfl

/-- C3 amended witness at the concrete scripted turn. -/
theorem conversation_single_call_shape_witness :
    jloads (argText Option.none) = some (PyObj.dict []) ∧
    handleUserMessage (.ok [toolT]) postBoom [.funCall "t" Option.none, .plain "ok"] [] "hi" =
      .done (([] ++ [("user", "hi")]) ++ [("assistant", "ok")])
        ((⟨"system", PyObj.str sysPrompt, Option.none, Option.none⟩ ::
            ([] ++ [("user", "hi")]).map chatTurnMsg) ++
          [⟨"assistant", PyObj.none, some "t", some ⟨"t", Option.none⟩⟩,
           ⟨"function", toolAnswer (postBoom "t" (PyObj.dict [])), some "t", Option.none⟩])
        ([] ++ [("t", PyObj.dict [])]) "ok" :=
  ⟨rfl, conversation_single_call_shape [toolT] postBoom [] "hi" "t" Option.none "ok"
    (PyObj.dict []) rfl⟩

/-- C6 counterexample: a profile holding a spec but an empty operations
map does not round-trip — the persisted record refills operations from
the spec, so deserialization returns a different operations map. -/
theorem roundtrip_operations_changed :
    (save_state_api profEmptyOps).map
        (fun r => (load_state_api "a" r).operations.map Prod.fst) =
      some ["get /pets", "post /pets"] ∧
    profEmptyOps.operations.map Prod.fst = [] ∧
    (["get /pets", "post /pets"] : List String) ≠ [] :=
  ⟨rfl, rfl, by decide⟩

/-- C6 amended: the save/load round trip reproduces the enabled map, the
tool-name aliases and every other persisted field exactly, and reproduces
the operations map except in the one case where the spec is truthy and
the operations map empty, in which case it is refilled from the spec —
so no user enable/disable choice is ever dropped. -/
theorem save_load_roundtrip (v : Profile) (r : ProfileRec)
    (h : save_state_api v = some r) :
    (load_state_api v.name r).enabled = v.enabled ∧
    (load_state_api v.name r).mcp_names = v.mcp_names ∧
    (load_state_api v.name r).name = v.name ∧
    (load_state_api v.name r).url = v.url ∧
    (load_state_api v.name r).port = v.port ∧
    (load_state_api v.name r).spec = v.spec ∧
    (load_state_api v.name r).thread = Option.none ∧
    (load_state_api v.name r).logs = [] ∧
    (¬ (truthy v.spec = true ∧ v.operations.isEmpty = true) →
      (load_state_api v.name r).operations = v.operations) := by
  unfold save_state_api at h
  split at h
  · rename_i hcond
    cases hext : extract_ops v.spec with
    | none =>
      rw [hext] at h
      exact absurd h (by simp)
    | some o =>
      rw [hext] at h
      injection h with h2
      subst h2
      exact ⟨rfl, rfl, rfl, rfl, rfl, rfl, rfl, rfl, fun hn => absurd hcond hn⟩
  · injection h with h2
    subst h2
    exact ⟨rfl, rfl, rfl, rfl, rfl, rfl, rfl, rfl, fun _ => rfl⟩

/-- C6 witness: a spec-less profile with nonempty operations round-trips
all three maps unchanged. -/
theorem save_load_roundtrip_witness :
    ¬ (truthy profNoSpecOps.spec = true ∧ profNoSpecOps.operations.isEmpty = true) ∧
    ∃ r, save_state_api profNoSpecOps = some r ∧
      (load_state_api profNoSpecOps.name r).enabled = profNoSpecOps.enabled ∧
      (load_state_api profNoSpecOps.name r).mcp_names = profNoSpecOps.mcp_names ∧
      (load_state_api profNoSpecOps.name r).operations = profNoSpecOps.operations := by
  have hcond : ¬ (truthy profNoSpecOps.spec = true ∧ profNoSpecOps.operations.isEmpty = true) := by
    intro hc
    exact absurd hc.1 (by decide)
  have hsave : save_state_api profNoSpecOps =
      some ⟨"b", "", 8000, "", "", "", "", PyObj.none,
        [("get /x", ⟨.str "", [], .str "get_x"⟩)], [("get /x", true)],
        some [("get_x", "fetch_x")]⟩ := rfl
  obtain ⟨h1, h2, _, _, _, _, _, _, h9⟩ := save_load_roundtrip profNoSpecOps _ hsave
  exact ⟨hcond, _, hsave, h1, h2, h9 hcond⟩
/-- Membership in the per-path method filter of `filter_spec`. -/
theorem mem_filterMethods (p : String) (allowed : List (String × String))
    (ms : List (String × PyObj)) (mo : String × PyObj) :
    mo ∈ filterMethods p allowed ms ↔ (mo ∈ ms ∧ (p, pyLower mo.1) ∈ allowed) := by
  simp [filterMethods, List.mem_filter]

/-- The operation pairs of a dict-valued path item. -/
theorem pathOps_cons_dict (p : String) (mitems rest : List (String × PyObj)) :
    pathOps ((p, PyObj.dict mitems) :: rest) =
      mitems.map (fun mo => (p, mo.1)) ++ pathOps rest := rfl

/-- The path loop of `filter_spec` succeeds on a dict-of-dicts paths value
and keeps exactly the allowed operations, dropping emptied paths. -/
theorem filterPaths_sound (allowed : List (String × String))
    (pitems : List (String × PyObj)) (h : allDicts pitems = true) :
    ∃ out, filterPaths allowed pitems = some out ∧
      (∀ q m, (q, m) ∈ pathOps out ↔
        ((q, m) ∈ pathOps pitems ∧ (q, pyLower m) ∈ allowed)) ∧
      allNonemptyDicts out = true := by
  induction pitems with
  | nil => exact ⟨[], rfl, by simp [pathOps], rfl⟩
  | cons pv rest ih =>
    obtain ⟨p, ms⟩ := pv
    rw [allDicts, Bool.and_eq_true] at h
    obtain ⟨hd, hrest⟩ := h
    cases ms with
    | dict mitems =>
      obtain ⟨out, hout, hiff, hne⟩ := ih hrest
      by_cases hkept : (filterMethods p allowed mitems).isEmpty
      · refine ⟨out, ?_, ?_, hne⟩
        · unfold filterPaths
          rw [hout]
          dsimp only
          rw [if_pos hkept]
        · intro q m
          rw [hiff q m, pathOps_cons_dict]
          constructor
          · rintro ⟨hmem, hall⟩
            exact ⟨List.mem_append_right _ hmem, hall⟩
          · rintro ⟨hmem, hall⟩
            rcases List.mem_append.mp hmem with hin | hin
            · exfalso
              obtain ⟨mo, hmo, heq⟩ := List.mem_map.mp hin
              obtain ⟨h1, h2⟩ := Prod.mk.injEq .. ▸ heq
              have : mo ∈ filterMethods p allowed mitems :=
                (mem_filterMethods p allowed mitems mo).mpr
                  ⟨hmo, by rw [h2]; exact h1 ▸ hall⟩
              rw [List.isEmpty_iff.mp hkept] at this
              exact absurd this (List.not_mem_nil _)
            · exact ⟨hin, hall⟩
      · refine ⟨(p, PyObj.dict (filterMethods p allowed mitems)) :: out, ?_, ?_, ?_⟩
        · unfold filterPaths
          rw [hout]
          dsimp only
          rw [if_neg hkept]
        · intro q m
          rw [pathOps_cons_dict, pathOps_cons_dict]
          constructor
          · intro hmem
            rcases List.mem_append.mp hmem with hin | hin
            · obtain ⟨mo, hmo, heq⟩ := List.mem_map.mp hin
              obtain ⟨hmo2, hall⟩ := (mem_filterMethods p allowed mitems mo).mp hmo
              obtain ⟨h1, h2⟩ := Prod.mk.injEq .. ▸ heq
              refine ⟨List.mem_append_left _ (List.mem_map.mpr ⟨mo, hmo2, heq⟩), ?_⟩
              rw [← h1, ← h2]
              exact hall
            · obtain ⟨hmem2, hall⟩ := (hiff q m).mp hin
              exact ⟨List.mem_append_right _ hmem2, hall⟩
          · rintro ⟨hmem, hall⟩
            rcases List.mem_append.mp hmem with hin | hin
            · obtain ⟨mo, hmo, heq⟩ := List.mem_map.mp hin
              obtain ⟨h1, h2⟩ := Prod.mk.injEq .. ▸ heq
              refine List.mem_append_left _ (List.mem_map.mpr ⟨mo, ?_, heq⟩)
              exact (mem_filterMethods p allowed mitems mo).mpr
                ⟨hmo, by rw [h2]; exact h1 ▸ hall⟩
            · exact List.mem_append_right _ ((hiff q m).mpr ⟨hin, hall⟩)
        · cases hk : filterMethods p allowed mitems with
          | nil => rw [hk] at hkept; exact absurd rfl hkept
          | cons x xs =>
            rw [allNonemptyDicts, Bool.and_eq_true]
            exact ⟨rfl, hne⟩
    | none => simp [PyObj.isDict] at hd
    | bool b => simp [PyObj.isDict] at hd
    | int n => simp [PyObj.isDict] at hd
    | str s => simp [PyObj.isDict] at hd
    | list xs => simp [PyObj.isDict] at hd

/-- C1: for every spec that is a dict whose paths value is a dict of
dicts, `filter_spec` returns a spec whose paths entry is replaced (all
other keys untouched) by exactly the path items whose (path, lowercased
method) pair lies in the allow-set; every path left with zero methods is
dropped, and (the model being pure) the input is not mutated. -/
theorem filter_spec_projects_exactly (kvs pitems : List (String × PyObj))
    (allowed : List (String × String))
    (hp : dlookup kvs "paths" = some (.dict pitems))
    (hwf : allDicts pitems = true) :
    ∃ pitems2,
      filter_spec (.dict kvs) allowed =
        some (.dict (dinsert kvs "paths" (.dict pitems2))) ∧
      (∀ q m, (q, m) ∈ pathOps pitems2 ↔
        ((q, m) ∈ pathOps pitems ∧ (q, pyLower m) ∈ allowed)) ∧
      allNonemptyDicts pitems2 = true := by
  obtain ⟨out, hout, hiff, hne⟩ := filterPaths_sound allowed pitems hwf
  refine ⟨out, ?_, hiff, hne⟩
  simp only [filter_spec, hp, hout]

/-- C1 witness at the pet spec with only GET allowed. -/
theorem filter_spec_projects_exactly_witness :
    dlookup kvsPets "paths" = some (.dict pitemsPets) ∧
    allDicts pitemsPets = true ∧
    ∃ pitems2,
      filter_spec (.dict kvsPets) [("/pets", "get")] =
        some (.dict (dinsert kvsPets "paths" (.dict pitems2))) ∧
      (∀ q m, (q, m) ∈ pathOps pitems2 ↔
        ((q, m) ∈ pathOps pitemsPets ∧ (q, pyLower m) ∈ [("/pets", "get")])) ∧
      allNonemptyDicts pitems2 = true :=
  ⟨rfl, rfl, filter_spec_projects_exactly kvsPets pitemsPets [("/pets", "get")] rfl rfl⟩
/-- C5 counterexample: the catalog built from a spec whose only operation
is an OPTIONS metadata probe contains that operation — `extract_ops`
applies no method filtering, so the catalog is not restricted to the set
get, post, put, patch, delete. -/
theorem extract_ops_keeps_probe_methods :
    (extract_ops specProbe).map (fun l => l.map Prod.fst) = some ["options /x"] ∧
    "options" ∉ ["get", "post", "put", "patch", "delete"] :=
  ⟨rfl, by decide⟩

/-- Catalog dict assignment at a fresh key appends. -/
theorem dinsertOp_of_not_mem (acc : List (String × OpInfo)) (k : String) (v : OpInfo)
    (h : k ∉ acc.map Prod.fst) : dinsertOp acc k v = acc ++ [(k, v)] := by
  induction acc with
  | nil => rfl
  | cons kv rest ih =>
    simp only [List.map_cons, List.mem_cons] at h
    push_neg at h
    obtain ⟨k0, w⟩ := kv
    unfold dinsertOp
    rw [if_neg (fun he => h.1 he.symm), ih h.2]
    rfl

/-- The catalog keys contributed by a dict-valued path item. -/
theorem catalogKeys_cons_dict (p : String) (mitems rest : List (String × PyObj)) :
    catalogKeys ((p, PyObj.dict mitems) :: rest) =
      mitems.map (fun mo => pyLower mo.1 ++ " " ++ p) ++ catalogKeys rest := rfl

/-- Keys produced by the method loop of `extract_ops`: on pairwise
distinct generated keys disjoint from the accumulator, the loop appends
one key per method in order. -/
theorem extractMethods_keys (path : String) (mitems : List (String × PyObj)) :
    ∀ (acc out : List (String × OpInfo)),
    extractMethods path mitems acc = some out →
    (∀ mo ∈ mitems, (pyLower mo.1 ++ " " ++ path) ∉ acc.map Prod.fst) →
    (mitems.map (fun mo => pyLower mo.1 ++ " " ++ path)).Nodup →
    out.map Prod.fst =
      acc.map Prod.fst ++ mitems.map (fun mo => pyLower mo.1 ++ " " ++ path) := by
  induction mitems with
  | nil =>
    intro acc out h _ _
    injection h with h2
    subst h2
    simp
  | cons mo rest ih =>
    intro acc out h hdisj hnd
    obtain ⟨m, op⟩ := mo
    unfold extractMethods at h
    cases hop : extractOp m path op with
    | none =>
      rw [hop] at h
      exact absurd h (by simp)
    | some info =>
      rw [hop] at h
      dsimp only at h
      have hkey : (pyLower m ++ " " ++ path) ∉ acc.map Prod.fst :=
        hdisj (m, op) (List.mem_cons_self _ _)
      rw [dinsertOp_of_not_mem acc _ info hkey] at h
      simp only [List.map_cons] at hnd
      have hnd2 := hnd.of_cons
      have hknotrest : (pyLower m ++ " " ++ path) ∉
          rest.map (fun mo => pyLower mo.1 ++ " " ++ path) :=
        (List.nodup_cons.mp hnd).1
      have hdisj2 : ∀ mo2 ∈ rest, (pyLower mo2.1 ++ " " ++ path) ∉
          (acc ++ [(pyLower m ++ " " ++ path, info)]).map Prod.fst := by
        intro mo2 hm2
        simp only [List.map_append, List.map_cons, List.map_nil, List.mem_append,
          List.mem_singleton]
        rintro (hin | hin)
        · exact hdisj mo2 (List.mem_cons_of_mem _ hm2) hin
        · exact hknotrest (hin ▸ List.mem_map.mpr ⟨mo2, hm2, rfl⟩)
      have hrec := ih (acc ++ [(pyLower m ++ " " ++ path, info)]) out h hdisj2 hnd2
      rw [hrec]
      simp

/-- Keys produced by the path loop of `extract_ops`. -/
theorem extractPaths_keys (pitems : List (String × PyObj)) :
    ∀ (acc out : List (String × OpInfo)),
    extractPaths pitems acc = some out →
    (∀ k ∈ catalogKeys pitems, k ∉ acc.map Prod.fst) →
    (catalogKeys pitems).Nodup →
    out.map Prod.fst = acc.map Prod.fst ++ catalogKeys pitems := by
  induction pitems with
  | nil =>
    intro acc out h _ _
    injection h with h2
    subst h2
    simp [catalogKeys]
  | cons pv rest ih =>
    intro acc out h hdisj hnd
    obtain ⟨p, ms⟩ := pv
    cases ms with
    | dict mitems =>
      unfold extractPaths at h
      dsimp only at h
      cases hacc2 : extractMethods p mitems acc with
      | none =>
        rw [hacc2] at h
        exact absurd h (by simp)
      | some acc2 =>
        rw [hacc2] at h
        rw [catalogKeys_cons_dict] at hdisj hnd ⊢
        obtain ⟨hnd1, hnd2, hdisj12⟩ := List.nodup_append.mp hnd
        have h1 := extractMethods_keys p mitems acc acc2 hacc2
          (fun mo hmo => hdisj _ (List.mem_append_left _ (List.mem_map.mpr ⟨mo, hmo, rfl⟩)))
          hnd1
        have hdisj2 : ∀ k ∈ catalogKeys rest, k ∉ acc2.map Prod.fst := by
          intro k hk
          rw [h1]
          intro hin
          rcases List.mem_append.mp hin with hin2 | hin2
          · exact hdisj k (List.mem_append_right _ hk) hin2
          · obtain ⟨mo, hmo, heq⟩ := List.mem_map.mp hin2
            exact hdisj12 (List.mem_map.mpr ⟨mo, hmo, heq⟩) hk
        have hrec := ih acc2 out h hdisj2 hnd2
        rw [hrec, h1, List.append_assoc]
    | none => exact absurd h (by simp [extractPaths])
    | bool b => exact absurd h (by simp [extractPaths])
    | int n => exact absurd h (by simp [extractPaths])
    | str s => exact absurd h (by simp [extractPaths])
    | list xs => exact absurd h (by simp [extractPaths])

/-- C5 amended: for every truthy dict spec on which `extract_ops`
succeeds and whose generated keys are pairwise distinct, the catalog holds
exactly one entry per (path, method) pair of the paths dict — for every
method key, with no filtering by method name — keyed by the lowercased
method, a single space, and the verbatim path. -/
theorem extract_ops_catalog_keys (kvs pitems : List (String × PyObj))
    (ops : List (String × OpInfo))
    (ht : truthy (PyObj.dict kvs) = true)
    (hp : (dlookup kvs "paths").getD (.dict []) = .dict pitems)
    (hext : extract_ops (.dict kvs) = some ops)
    (hnd : (catalogKeys pitems).Nodup) :
    ops.map Prod.fst = catalogKeys pitems := by
  unfold extract_ops at hext
  rw [if_neg (by simp [ht, PyObj.isDict])] at hext
  dsimp only at hext
  rw [hp] at hext
  dsimp only at hext
  simpa using extractPaths_keys pitems [] ops hext (by simp) hnd

/-- C5 amended witness at the two-operation pet spec. -/
theorem extract_ops_catalog_keys_witness :
    truthy (PyObj.dict kvsPets) = true ∧
    (dlookup kvsPets "paths").getD (.dict []) = .dict pitemsPets ∧
    (catalogKeys pitemsPets).Nodup ∧
    ∃ ops, extract_ops (.dict kvsPets) = some ops ∧
      ops.map Prod.fst = catalogKeys pitemsPets :=
  ⟨rfl, rfl, by decide, _, rfl,
    extract_ops_catalog_keys kvsPets pitemsPets _ rfl rfl rfl (by decide)⟩

end OgonMCP
